import Mathlib

/-!
# Verification of the SkillGate retrieval/role-installation code

Shallow embedding of `src/skill_registry_rag/mcp_server.py`,
`src/skill_registry_rag/cli.py` and `src/skill_registry_rag/roles.py`.
The retrieval engine itself (`retriever.py`, `registry.py`, `adapters.py`,
`_resolve.py`) is not part of the available sources; where a claim depends on
it, the engine is modelled from the specification (those definitions carry a
`Modelled from the spec:` doc comment).

Python strings are modelled as Lean `String`, Python `int` as `Int`,
floats as `ℚ` (the spec leaves the exact scoring scheme open, see §9 of the
spec), raised exceptions as `Except` errors, and the filesystem as an explicit
map from path strings to file contents.
-/

/-- Python's `str.strip()` whitespace set, restricted to the ASCII whitespace
characters that can actually occur in the involved configuration strings. -/
def isPySpace (c : Char) : Bool :=
  c = ' ' ∨ c = '\t' ∨ c = '\n' ∨ c = '\r' ∨ c = '\x0b' ∨ c = '\x0c'

/-- Python `str.strip()`: drop whitespace from both ends. -/
def pyStrip (s : String) : String :=
  (((s.toList.dropWhile isPySpace).reverse.dropWhile isPySpace).reverse).asString

/-- Python truthiness-based defaulting `s or d` for strings. -/
def pyOr (s d : String) : String := if s = "" then d else s

/-- Python `str.lower()` (ASCII; structural so that concrete runs reduce). -/
def strToLower (s : String) : String := (s.toList.map Char.toLower).asString

/-- Python `str.startswith(pre)`. -/
def strStarts (s pre : String) : Bool := pre.toList.isPrefixOf s.toList

/-- Split a character list on a separator character (never empty). -/
def splitChar (sep : Char) : List Char → List (List Char)
  | [] => [[]]
  | c :: cs =>
    match splitChar sep cs with
    | [] => [[]]
    | g :: gs => if c = sep then [] :: g :: gs else (c :: g) :: gs

/-- Python `str.split(sep)` for a one-character separator. -/
def splitOnCharS (sep : Char) (s : String) : List String :=
  (splitChar sep s.toList).map List.asString

/-- Lexicographic strict comparison of character lists by code point (the
comparison Python uses on `str`), written to reduce in the kernel. -/
def charsLt : List Char → List Char → Bool
  | [], [] => false
  | [], _ :: _ => true
  | _ :: _, [] => false
  | a :: as, b :: bs =>
    if a.toNat < b.toNat then true
    else if b.toNat < a.toNat then false
    else charsLt as bs

/-- Python `a < b` on strings. -/
def strLt (a b : String) : Bool := charsLt a.toList b.toList

/-! ## Stable insertion sort

Python's `sorted`/`list.sort` is a stable sort; any two stable sorts under the
same strict "must come before" relation agree, so the insertion sort below is
extensionally the sort used by the source. `lt a b = true` means `a` must be
placed strictly before `b`. -/

/-- Insert `x` after every element that must come before it (stable). -/
def insertOrd (lt : α → α → Bool) (x : α) : List α → List α
  | [] => [x]
  | y :: ys => if lt y x then y :: insertOrd lt x ys else x :: y :: ys

/-- Stable insertion sort with strict "comes before" test `lt`. -/
def insortBy (lt : α → α → Bool) : List α → List α
  | [] => []
  | x :: xs => insertOrd lt x (insortBy lt xs)

/-- The sortedness target: no later element must come before an earlier one. -/
def SortedBy (lt : α → α → Bool) (l : List α) : Prop :=
  l.Pairwise (fun a b => lt b a = false)

/-! ## Retrieval engine (modelled from the spec)

`retriever.py`, `registry.py`, `_resolve.py` and `adapters.py` are imported by
the sources but are not part of the available repository files; the engine is
modelled from spec §3, §4.1–§4.4 and §6. -/

/-- Modelled from the spec: §3 ExpertCard, an immutable record.  Lives in
`models.py`, which is not among the available sources. -/
structure ExpertCard where
  id : String
  title : String
  domain : String
  description : String
  tags : List String
  aliases : List String
  tool_hints : List String
  dependencies : List String
  input_contract : String
  output_artifacts : List String
  quality_checks : List String
  constraints : String
  risk_level : String
  maturity : String
  metadata : List (String × String)
deriving DecidableEq

/-- Modelled from the spec: §3 RetrievalHit — one card plus fused `score`,
`sparse_score` and nullable `dense_score`. -/
structure RetrievalHit where
  card : ExpertCard
  score : ℚ
  sparse_score : ℚ
  dense_score : Option ℚ
deriving DecidableEq

/-- Modelled from the spec: §4.1 tokenization — lowercase, split on
non-alphanumeric boundaries. -/
def tokenize (s : String) : List String :=
  (splitOnCharS ' '
    (((strToLower s).toList.map (fun c => if c.isAlpha ∨ c.isDigit then c else ' ')).asString)).filter
    (fun t => t ≠ "")

/-- Modelled from the spec: §4.1 — the indexed text of a card is `title`,
`description`, `domain`, `tags`, `aliases`, `tool_hints` concatenated. -/
def cardTokens (c : ExpertCard) : List String :=
  tokenize (String.intercalate " "
    ([c.title, c.description, c.domain] ++ c.tags ++ c.aliases ++ c.tool_hints))

/-- Modelled from the spec: §4.1 sparse scoring over term frequency and
inverse document frequency.  The spec (§9) explicitly leaves the exact
weighting scheme open ("implementers should not treat them as a fixed contract
to byte-match"); this model uses the BM25 shape with k1 = 6/5, b = 3/4 over ℚ
and the ratio-style idf `(N+1)/(df+1)` in place of its logarithm, which keeps
every weight positive exactly when a query token occurs in the card. -/
def sparseScore (corpus : List ExpertCard) (c : ExpertCard) (query : String) : ℚ :=
  let n : ℚ := corpus.length
  let dl : ℚ := (cardTokens c).length
  let avgdl : ℚ := (corpus.map (fun d => ((cardTokens d).length : ℚ))).sum / n
  let k1 : ℚ := 6 / 5
  let b : ℚ := 3 / 4
  ((tokenize query).dedup.map (fun t =>
    let tf : ℚ := ((cardTokens c).filter (fun u => u = t)).length
    if tf = 0 then 0
    else
      let df : ℚ := (corpus.filter (fun d => t ∈ cardTokens d)).length
      ((n + 1) / (df + 1)) * (tf * (k1 + 1)) / (tf + k1 * (1 - b + b * dl / avgdl)))).sum

/-- Modelled from the spec: §4.2 similarity-backend capability contract.
`query` returns id→similarity pairs for the ids it can score. -/
structure SimilarityBackend where
  supportsDense : Bool
  query : String → List String → Nat → List (String × ℚ)

/-- Modelled from the spec: §4.2 MemoryBackend — no dense capability, empty
query result. -/
def MemoryBackend : SimilarityBackend := ⟨false, fun _ _ _ => []⟩

/-- Modelled from the spec: §4.3/§6 retriever configuration — `useDense`,
resolved backend and the configurable fusion weights (defaults 0.6/0.4). -/
structure RetrieverConfig where
  use_dense : Bool
  backend : SimilarityBackend
  sparseWeight : ℚ := 3 / 5
  denseWeight : ℚ := 2 / 5

/-- Modelled from the spec: §7 — dense scoring is active only when requested
and the resolved backend supports it (auto-degrade is a state, not an error). -/
def denseActive (cfg : RetrieverConfig) : Bool :=
  cfg.use_dense && cfg.backend.supportsDense

/-- Modelled from the spec: §4.3 step 2 min-max normalization with the
max = min ⇒ 0 convention. -/
def minmax (lo hi x : ℚ) : ℚ := if hi = lo then 0 else (x - lo) / (hi - lo)

/-- Modelled from the spec: §4.3/§4.4 — per-query candidate construction:
sparse score for every corpus card; when dense is active, dense similarities
for the same candidate set, both signals min-max normalized and blended with
the configured weights; when inactive, fused = sparse and dense is absent. -/
def candidateHits (corpus : List ExpertCard) (cfg : RetrieverConfig)
    (query : String) (topK : Nat) : List RetrievalHit :=
  let sparse := corpus.map (fun c => (c, sparseScore corpus c query))
  if denseActive cfg then
    let denseMap := cfg.backend.query query (corpus.map (fun c => c.id)) topK
    let withDense := sparse.map (fun p =>
      (p.1, p.2, (denseMap.find? (fun q => q.1 = p.1.id)).map Prod.snd))
    let sVals := withDense.map (fun t => t.2.1)
    let dVals := withDense.map (fun t => (t.2.2.getD 0))
    let sLo := sVals.foldr min 0
    let sHi := sVals.foldr max 0
    let dLo := dVals.foldr min 0
    let dHi := dVals.foldr max 0
    withDense.map (fun t =>
      { card := t.1
        score := cfg.sparseWeight * minmax sLo sHi t.2.1 +
          cfg.denseWeight * minmax dLo dHi (t.2.2.getD 0)
        sparse_score := t.2.1
        dense_score := t.2.2 })
  else
    sparse.map (fun p =>
      { card := p.1, score := p.2, sparse_score := p.2, dense_score := none })

/-- Modelled from the spec: §4.3 step 3 — a candidate with zero sparse score
and zero/absent dense contribution is excluded. -/
def hasSignal (h : RetrievalHit) : Bool :=
  !(h.sparse_score == 0 && h.dense_score.getD 0 == 0)

/-- Modelled from the spec: §4.3 step 4 — sort by fused score descending,
tie-break by ascending card id. -/
def hitLT (a b : RetrievalHit) : Bool :=
  decide (b.score < a.score) || (decide (a.score = b.score) && strLt a.card.id b.card.id)

/-- Modelled from the spec: §4.3 steps 3–5 — filter non-matches, sort, and
truncate to `top_k`. -/
def rankHits (cands : List RetrievalHit) (topK : Nat) : List RetrievalHit :=
  (insortBy hitLT (cands.filter hasSignal)).take topK

/-- Errors raised by the embedded code.  Python raises `ValueError` for what
the spec calls `ConfigurationError` (`Err.config`), wraps registry-load
failures (`Err.registry`, the spec's `CorpusError`) into a
`ValueError("Invalid registry: ...")`, raises `Err.backendUnavailable` when an
explicit dense backend cannot be constructed, and `RoleCatalogError`
(`Err.roleCatalog`) for role-catalog operations. -/
inductive Err where
  | config (msg : String)
  | registry (msg : String)
  | backendUnavailable (msg : String)
  | roleCatalog (msg : String)
deriving DecidableEq

/-- Modelled from the spec: §4.3/§4.4 `SkillRetriever.retrieve` from the
missing `retriever.py` — `top_k` must be a positive integer (a configuration
error otherwise, never clamped); otherwise candidates are scored, fused,
filtered, sorted and truncated. -/
def SkillRetriever.retrieve (corpus : List ExpertCard) (cfg : RetrieverConfig)
    (query : String) (topK : Int) : Except Err (List RetrievalHit) :=
  if topK < 1 then .error (.config "`top_k` must be >= 1.")
  else .ok (rankHits (candidateHits corpus cfg query topK.toNat) topK.toNat)

/-! ## MCP server layer (`mcp_server.py`, in the sources)

The registry loader, path resolver, backend selector and context renderers
live in modules outside the available sources, so they enter the model as an
explicit environment; every call into them is recorded in an effect trace so
that "X happens before Y" claims are expressible. -/

/-- Valid backend names (`_VALID_BACKENDS` in `mcp_server.py`). -/
def _VALID_BACKENDS : List String := ["auto", "memory", "chroma"]

/-- Valid provider names (`_VALID_PROVIDERS` in `mcp_server.py`). -/
def _VALID_PROVIDERS : List String := ["claude", "codex"]

/-- Embeds `_normalize_query` from `mcp_server.py`: strip, reject empty. -/
def _normalize_query (query : String) : Except Err String :=
  let normalized := pyStrip query
  if normalized = "" then .error (.config "`query` must be a non-empty string.")
  else .ok normalized

/-- Embeds `_normalize_top_k` from `mcp_server.py`: reject values below 1. -/
def _normalize_top_k (top_k : Int) : Except Err Int :=
  if top_k < 1 then .error (.config "`top_k` must be >= 1.")
  else .ok top_k

/-- Embeds `_normalize_provider` from `mcp_server.py`. -/
def _normalize_provider (provider : String) : Except Err String :=
  let normalized := strToLower (pyStrip provider)
  if normalized ∈ _VALID_PROVIDERS then .ok normalized
  else .error (.config "`provider` must be one of: claude, codex.")

/-- Embeds `_normalize_backend` from `mcp_server.py`: `str(backend or "auto")`,
strip, lowercase, then validate membership in `_VALID_BACKENDS`. -/
def _normalize_backend (backend : String) : Except Err String :=
  let normalized := strToLower (pyStrip (pyOr backend "auto"))
  if normalized ∈ _VALID_BACKENDS then .ok normalized
  else .error (.config "`backend` must be one of: auto, memory, chroma.")

/-- One call into the out-of-scope collaborators (registry resolution/loading,
backend construction, context rendering), recorded in order. -/
inductive Effect where
  | resolveRegistryPath
  | loadRegistry (path : String)
  | resolveBackend (mode : String)
  | render (provider : String)
deriving DecidableEq

/-- The out-of-scope collaborators of `mcp_server.py` (spec §1: registry
loading, backend construction and provider templating are external):
`resolve_registry_path`, `load_registry` (whose failures are the spec's
`CorpusError`, surfaced as `Err.registry`), the backend selector inside
`SkillRetriever.__init__`, and the two renderers from `adapters.py`. -/
structure RetrievalEnv where
  resolvePath : Option String → Except Err String
  loadRegistry : String → Except Err (List ExpertCard)
  resolveBackend : String → Except Err SimilarityBackend
  renderClaude : String → List RetrievalHit → Int → String
  renderCodex : String → List RetrievalHit → Int → String

/-- Embeds `_retrieve_hits` from `mcp_server.py`: normalize query, top_k and backend
(in that order), resolve and load the registry (a `RegistryError` is wrapped
into `ValueError("Invalid registry: ...")`), build the retriever and retrieve.
Returns the result plus the trace of external calls. -/
def _retrieve_hits (env : RetrievalEnv) (query : String) (registry : Option String)
    (top_k : Int) (backend : String) (dense : Bool) :
    Except Err (String × String × List RetrievalHit) × List Effect :=
  match _normalize_query query with
  | .error e => (.error e, [])
  | .ok resolvedQuery =>
  match _normalize_top_k top_k with
  | .error e => (.error e, [])
  | .ok resolvedTopK =>
  match _normalize_backend backend with
  | .error e => (.error e, [])
  | .ok resolvedBackend =>
  match env.resolvePath registry with
  | .error e => (.error e, [.resolveRegistryPath])
  | .ok registryPath =>
  match env.loadRegistry registryPath with
  | .error (.registry m) =>
      (.error (.config ("Invalid registry: " ++ m)),
       [.resolveRegistryPath, .loadRegistry registryPath])
  | .error e => (.error e, [.resolveRegistryPath, .loadRegistry registryPath])
  | .ok cards =>
  match env.resolveBackend resolvedBackend with
  | .error e =>
      (.error e,
       [.resolveRegistryPath, .loadRegistry registryPath,
        .resolveBackend resolvedBackend])
  | .ok bk =>
    let cfg : RetrieverConfig := { use_dense := dense, backend := bk }
    let trace := [Effect.resolveRegistryPath, .loadRegistry registryPath,
      .resolveBackend resolvedBackend]
    match SkillRetriever.retrieve cards cfg resolvedQuery resolvedTopK with
    | .error e => (.error e, trace)
    | .ok hits => (.ok (resolvedQuery, registryPath, hits), trace)

/-- A JSON-level payload value as emitted by `retrieve_cards_payload` /
`_hits_payload`. -/
inductive PVal where
  | null
  | s (v : String)
  | q (v : ℚ)
  | strs (v : List String)
  | map (v : List (String × String))
deriving DecidableEq

/-- The per-hit dictionary built by `retrieve_cards_payload` in
`mcp_server.py` (lines 137–158; `_hits_payload` in `cli.py` builds the
identical dictionary), with keys in source order. -/
def hitPayload (hit : RetrievalHit) : List (String × PVal) :=
  [("id", .s hit.card.id),
   ("title", .s hit.card.title),
   ("domain", .s hit.card.domain),
   ("description", .s hit.card.description),
   ("tags", .strs hit.card.tags),
   ("tool_hints", .strs hit.card.tool_hints),
   ("aliases", .strs hit.card.aliases),
   ("dependencies", .strs hit.card.dependencies),
   ("input_contract", .s hit.card.input_contract),
   ("output_artifacts", .strs hit.card.output_artifacts),
   ("quality_checks", .strs hit.card.quality_checks),
   ("constraints", .s hit.card.constraints),
   ("risk_level", .s hit.card.risk_level),
   ("maturity", .s hit.card.maturity),
   ("metadata", .map hit.card.metadata),
   ("score", .q hit.score),
   ("sparse_score", .q hit.sparse_score),
   ("dense_score", match hit.dense_score with
                   | none => .null
                   | some d => .q d)]

/-- Result value of `retrieve_cards_payload`. -/
structure RetrievePayload where
  query : String
  registry : String
  hits : List (List (String × PVal))
deriving DecidableEq

/-- Embeds `retrieve_cards_payload` from `mcp_server.py`. -/
def retrieve_cards_payload (env : RetrievalEnv) (query : String)
    (registry : Option String) (top_k : Int) (backend : String) (dense : Bool) :
    Except Err RetrievePayload × List Effect :=
  match _retrieve_hits env query registry top_k backend dense with
  | (.error e, t) => (.error e, t)
  | (.ok (resolvedQuery, registryPath, hits), t) =>
      (.ok ⟨resolvedQuery, registryPath, hits.map hitPayload⟩, t)

/-- Embeds `build_routed_context` from `mcp_server.py`: validate provider and
`instruction_chars` first, then retrieve and render. -/
def build_routed_context (env : RetrievalEnv) (query : String)
    (registry : Option String) (top_k : Int) (backend : String) (dense : Bool)
    (provider : String) (instruction_chars : Int) :
    Except Err String × List Effect :=
  match _normalize_provider provider with
  | .error e => (.error e, [])
  | .ok resolvedProvider =>
  if instruction_chars < 100 then
    (.error (.config "`instruction_chars` must be >= 100."), [])
  else
    match _retrieve_hits env query registry top_k backend dense with
    | (.error e, t) => (.error e, t)
    | (.ok (resolvedQuery, _, hits), t) =>
      if resolvedProvider = "codex" then
        (.ok (env.renderCodex resolvedQuery hits instruction_chars),
         t ++ [.render "codex"])
      else
        (.ok (env.renderClaude resolvedQuery hits instruction_chars),
         t ++ [.render "claude"])

/-! ## Role catalog operations (`roles.py`, in the sources)

Registry documents are YAML/JSON; the codec itself (`yaml.safe_load` /
`json.loads` / dumping) is an external library, so the filesystem maps a path
string either to an already-parsed document (`FileContent.doc`) or to raw text
(`FileContent.text`, for role instruction markdown).  Writing stores the
document value back; paths are plain strings, `Path.resolve`/`expanduser` are
the identity on them and `Path.parent` / `/` are modelled syntactically. -/

/-- A parsed YAML/JSON value. -/
inductive Val where
  | null
  | str (s : String)
  | int (n : Int)
  | bool (b : Bool)
  | list (xs : List Val)
  | obj (fields : List (String × Val))

/-- A file: either a registry document (parsed) or instruction text. -/
inductive FileContent where
  | doc (v : Val)
  | text (s : String)

/-- The filesystem: path → content, `none` when the path does not exist. -/
def Fs : Type := String → Option FileContent

/-- Point update of the filesystem (file creation / overwrite). -/
def fsSet (fs : Fs) (p : String) (c : FileContent) : Fs :=
  fun q => if q = p then some c else fs q

/-- First-match key lookup in an object's field list (Python dict lookup;
parsed dictionaries have unique keys). -/
def objGet : List (String × Val) → String → Option Val
  | [], _ => none
  | (k, v) :: fs, key => if k = key then some v else objGet fs key

/-- Python `entry.get(key)` on an entry known to be a dict; `none` when the value is
not a dict or lacks the key. -/
def vGet (v : Val) (key : String) : Option Val :=
  match v with
  | .obj fields => objGet fields key
  | _ => none

/-- Python `value.get(key, default)`. -/
def vGetD (v : Val) (key : String) (d : Val) : Val := (vGet v key).getD d

/-- Python dict assignment `payload[key] = v`: replace the existing binding in
place, else append. -/
def vSet (v : Val) (key : String) (newVal : Val) : Val :=
  match v with
  | .obj fields => .obj (go fields)
  | other => other
where
  go : List (String × Val) → List (String × Val)
    | [] => [(key, newVal)]
    | (k, w) :: fs => if k = key then (k, newVal) :: fs else (k, w) :: go fs

/-- Python `isinstance(v, dict)`. -/
def isDict : Val → Bool
  | .obj _ => true
  | _ => false

/-- Python `str(v)`.  Faithful for the string/number/bool/None values that
carry the data of interest; container rendering is abstracted (no claim
depends on `str()` of a list/dict). -/
def pyStr : Val → String
  | .str s => s
  | .null => "None"
  | .bool true => "True"
  | .bool false => "False"
  | .int n => toString n
  | .list _ => "<list>"
  | .obj _ => "<dict>"

/-- Embeds `_entry_id` from `roles.py`: `str(entry.get("id", "")).strip()`. -/
def _entry_id (entry : Val) : String :=
  pyStrip (pyStr (vGetD entry "id" (.str "")))

/-- Embeds `_unique` from `roles.py` on a list of strings: strip each value, skip
empties and previously seen values, keep first-occurrence order.  `seen` is
the set of values already emitted. -/
def pyUniqueFrom (seen : List String) : List String → List String
  | [] => []
  | v :: vs =>
    let normalized := pyStrip v
    if normalized = "" ∨ normalized ∈ seen then pyUniqueFrom seen vs
    else normalized :: pyUniqueFrom (normalized :: seen) vs

/-- Embeds `_unique` from `roles.py` (`str(value)` is the identity on strings). -/
def pyUnique (values : List String) : List String := pyUniqueFrom [] values

/-- Embeds `_unique` applied to a list of parsed values (`str(value).strip()`). -/
def _unique (values : List Val) : List String := pyUnique (values.map pyStr)

/-- Embeds `_is_role_entry` from `roles.py`: id prefixed `role.`, or domain
`role_orchestrator`, or a `role` tag. -/
def _is_role_entry (entry : Val) : Bool :=
  let card_id := _entry_id entry
  if strStarts card_id "role." then true
  else if strToLower (pyStrip (pyStr (vGetD entry "domain" (.str "")))) =
      "role_orchestrator" then true
  else
    match vGet entry "tags" with
    | some (.list tags) =>
        ((tags.filter (fun x => pyStrip (pyStr x) ≠ "")).map
          (fun x => strToLower (pyStrip (pyStr x)))).contains "role"
    | _ => false

/-- The backtick character (delimits dependency ids in role markdown). -/
def btick : Char := Char.ofNat 96

/-- A character the dependency-id pattern accepts: `[A-Za-z0-9._-]`. -/
def idChar (c : Char) : Bool :=
  (c.isAlpha ∧ c.toNat < 128) ∨ c.isDigit ∨ c = '.' ∨ c = '_' ∨ c = '-'

/-- Left-to-right scan for non-overlapping backtick-delimited runs of
`idChar`s — the matches of the `` `([A-Za-z0-9._-]+)` `` pattern
(`_ROLE_DEPENDENCY_ID_RE`).  `acc` holds the characters (reversed) collected
since the last unmatched opening backtick, `none` when outside a candidate. -/
def scanTicksAux : List Char → Option (List Char) → List String
  | [], _ => []
  | c :: cs, none =>
      if c = btick then scanTicksAux cs (some []) else scanTicksAux cs none
  | c :: cs, some acc =>
      if c = btick then
        if acc.isEmpty then scanTicksAux cs (some [])
        else acc.reverse.asString :: scanTicksAux cs none
      else if idChar c then scanTicksAux cs (some (c :: acc))
      else scanTicksAux cs none

/-- All dependency-id matches in one line. -/
def findTickedIds (s : String) : List String := scanTicksAux s.toList none

/-- Python `str.splitlines` for newline-separated text (carriage returns are
removed later by `strip`). -/
def splitLines (s : String) : List String := splitOnCharS '\n' s

/-- Embeds `_parse_role_dependencies_from_instruction` from `roles.py`: inside the
`## Allowed Expert Dependencies` section, collect backticked ids until the
next `## ` heading; missing file ⇒ `[]`. -/
def _parse_role_dependencies_from_instruction (fs : Fs) (instruction_path : String) :
    List String :=
  match fs instruction_path with
  | some (.text text) =>
    let lines := splitLines text
    match lines.findIdx? (fun line =>
        strStarts (strToLower (pyStrip line)) "## allowed expert dependencies") with
    | none => []
    | some idx =>
      let body := (lines.drop (idx + 1)).takeWhile
        (fun line => ¬ strStarts (pyStrip line) "## ")
      pyUnique (body.flatMap (fun line => findTickedIds (pyStrip line)))
  | _ => []

/-- Python `Path.parent` rendered on path strings. -/
def dirname (p : String) : String :=
  String.intercalate "/" ((splitOnCharS '/' p).dropLast)

/-- Python `parent / child` on path strings. -/
def joinPath (parent child : String) : String := parent ++ "/" ++ child

/-- Python `Path.suffix` (lowercased by every caller). -/
def pathSuffix (p : String) : String :=
  let name := ((splitOnCharS '/' p).getLastD "")
  match splitOnCharS '.' name with
  | [] => ""
  | [_] => ""
  | first :: rest =>
      if first = "" ∧ rest.length = 1 then ""
      else "." ++ rest.getLastD ""

/-- Embeds `_SUPPORTED_SUFFIXES` from `roles.py`. -/
def _SUPPORTED_SUFFIXES : List String := [".json", ".yaml", ".yml"]

/-- Embeds `_resolve_role_dependencies` from `roles.py`: explicit `dependencies`
list, else ids parsed from the instruction markdown, else `tool_hints`
filtered to known catalog ids. -/
def _resolve_role_dependencies (fs : Fs) (role_entry : Val)
    (catalog_root : String) (known_ids : List String) : List String :=
  let dep_ids := match vGet role_entry "dependencies" with
    | some (.list dependencies) => _unique dependencies
    | _ => _unique []
  let dep_ids := if dep_ids.isEmpty then
      let instruction_file := pyStrip (pyStr (vGetD role_entry "instruction_file" (.str "")))
      if instruction_file ≠ "" then
        _parse_role_dependencies_from_instruction fs (joinPath catalog_root instruction_file)
      else dep_ids
    else dep_ids
  if dep_ids.isEmpty then
    match vGet role_entry "tool_hints" with
    | some (.list tool_hints) =>
        pyUnique ((tool_hints.map (fun x => pyStrip (pyStr x))).filter
          (fun s => s ∈ known_ids))
    | _ => dep_ids
  else dep_ids

/-- Embeds `_read_registry_document` from `roles.py`: suffix-dispatched parse.  The
codec is abstracted: a stored document is returned as is; text that is not a
registry document fails as a catalog error. -/
def _read_registry_document (fs : Fs) (path : String) : Except Err Val :=
  let suffix := strToLower (pathSuffix path)
  if suffix = ".yaml" ∨ suffix = ".yml" ∨ suffix = ".json" then
    match fs path with
    | some (.doc v) => .ok v
    | _ => .error (.roleCatalog ("Unreadable registry document: " ++ path))
  else .error (.roleCatalog ("Unsupported registry extension: " ++ suffix))

/-- Embeds `_write_registry_document` from `roles.py`: suffix check, then store the
document (serialization abstracted). -/
def _write_registry_document (fs : Fs) (path : String) (payload : Val) :
    Except Err Fs :=
  let suffix := strToLower (pathSuffix path)
  if suffix ∈ _SUPPORTED_SUFFIXES then .ok (fsSet fs path (.doc payload))
  else .error (.roleCatalog ("Unsupported registry extension: " ++ suffix))

/-- Embeds `_normalize_entries` from `roles.py`. -/
def _normalize_entries (payload : Val) (path : String) : Except Err (Val × String) :=
  match payload with
  | .null => .ok (.obj [("tools", .list [])], "tools")
  | .list xs => .ok (.obj [("tools", .list xs)], "tools")
  | .obj fields =>
    match objGet fields "tools" with
    | some (.list _) => .ok (payload, "tools")
    | _ =>
      match objGet fields "roles" with
      | some (.list _) => .ok (payload, "roles")
      | _ =>
        match fields with
        | [] => .ok (.obj [("tools", .list [])], "tools")
        | _ => .error (.roleCatalog
            ("Registry object must include one of 'tools' or 'roles': " ++ path))
  | _ => .error (.roleCatalog ("Registry must be list/object: " ++ path))

/-- Embeds `_load_catalog` from `roles.py`. -/
def _load_catalog (fs : Fs) (path : String) :
    Except Err (String × Val × String × List Val) :=
  match fs path with
  | none => .error (.roleCatalog ("Catalog registry not found: " ++ path))
  | some _ =>
    match _read_registry_document fs path with
    | .error e => .error e
    | .ok payload =>
      match _normalize_entries payload path with
      | .error e => .error e
      | .ok (normalized, key) =>
        match vGet normalized key with
        | some (.list entries) => .ok (path, normalized, key, entries)
        | _ => .error (.roleCatalog ("Registry entries must be a list: " ++ path))

/-- Embeds `_load_target_registry` from `roles.py`: read when present, otherwise an
empty `tools` registry after checking the extension is writable. -/
def _load_target_registry (fs : Fs) (path : String) :
    Except Err (String × Val × String × List Val) :=
  match fs path with
  | some _ =>
    match _read_registry_document fs path with
    | .error e => .error e
    | .ok payload =>
      match _normalize_entries payload path with
      | .error e => .error e
      | .ok (normalized, key) =>
        match vGet normalized key with
        | some (.list entries) => .ok (path, normalized, key, entries)
        | _ => .error (.roleCatalog ("Registry entries must be a list: " ++ path))
  | none =>
    let suffix := strToLower (pathSuffix path)
    if suffix ∈ _SUPPORTED_SUFFIXES then .ok (path, .obj [("tools", .list [])], "tools", [])
    else .error (.roleCatalog ("Unsupported registry extension: " ++ suffix))

/-- An entry that contributes to the id dictionaries: a dict with a non-empty
stripped id. -/
def goodEntry (e : Val) : Bool := isDict e && _entry_id e != ""

/-- The dict comprehension `{_entry_id(e): e for e in entries ...}`: later
entries overwrite earlier ones with the same id. -/
def catalogById (entries : List Val) (cid : String) : Option Val :=
  ((entries.filter goodEntry).reverse).find? (fun e => _entry_id e = cid)

/-- The ids present in a registry's entry list (as a membership set). -/
def entryIds (entries : List Val) : List String :=
  (entries.filter goodEntry).map _entry_id

/-- One offer row built by `list_role_offers`. -/
structure RoleOffer where
  id : String
  title : String
  description : String
  dependency_ids : List String
  dependency_count : Nat
  unresolved_dependencies : List String
  installed : Bool
  missing_dependency_count : Nat
deriving DecidableEq

/-- The offer built for one role entry inside `list_role_offers`. -/
def mkRoleOffer (fs : Fs) (catalog_root : String) (known_ids installed_ids : List String)
    (entry : Val) : RoleOffer :=
  let role_id := _entry_id entry
  let deps := _resolve_role_dependencies fs entry catalog_root known_ids
  { id := role_id
    title := pyStrip (pyStr (vGetD entry "title" (.str "")))
    description := pyStrip (pyStr (vGetD entry "description" (.str "")))
    dependency_ids := deps
    dependency_count := deps.length
    unresolved_dependencies := deps.filter (fun dep => dep ∉ known_ids)
    installed := role_id ∈ installed_ids
    missing_dependency_count := (deps.filter (fun dep => dep ∉ installed_ids)).length }

/-- The unsorted offer list: one offer per catalog entry that is a dict and a
role entry, in catalog order. -/
def roleOffersOf (fs : Fs) (catalog_root : String) (known_ids installed_ids : List String)
    (entries : List Val) : List RoleOffer :=
  (entries.filter (fun e => isDict e && _is_role_entry e)).map
    (mkRoleOffer fs catalog_root known_ids installed_ids)

/-- Strict "comes before" test of `offers.sort(key=lambda x: x["id"])`. -/
def offerLT (a b : RoleOffer) : Bool := strLt a.id b.id

/-- The installed-registry ids consulted by `list_role_offers` (loaded only
when a truthy installed-registry path is supplied). -/
def installedIdsOf (fs : Fs) (installed_registry : Option String) :
    Except Err (List String) :=
  match installed_registry with
  | some r =>
    if r = "" then .ok []
    else
      match _load_target_registry fs r with
      | .error e => .error e
      | .ok (_, _, _, installed_entries) => .ok (entryIds installed_entries)
  | none => .ok []

/-- Embeds `list_role_offers` from `roles.py`: load the catalog, build one offer per
role entry, sort ascending by role id (Python's stable sort). -/
def list_role_offers (fs : Fs) (catalog_registry : String)
    (installed_registry : Option String) : Except Err (List RoleOffer) :=
  match _load_catalog fs catalog_registry with
  | .error e => .error e
  | .ok (catalog_path, _, _, catalog_entries) =>
    let catalog_root := dirname catalog_path
    let known_ids := entryIds catalog_entries
    match installedIdsOf fs installed_registry with
    | .error e => .error e
    | .ok installed_ids =>
      .ok (insortBy offerLT
        (roleOffersOf fs catalog_root known_ids installed_ids catalog_entries))

/-- The report dictionary returned by `install_role_bundle`. -/
structure InstallReport where
  role_id : String
  catalog_registry : String
  target_registry : String
  requested_ids : List String
  dependency_ids : List String
  added_ids : List String
  already_present_ids : List String
  unresolved_dependencies : List String
  copied_instruction_files : List String
  dry_run : Bool

/-- Mutable state of the install loop in `install_role_bundle`. -/
structure InstallState where
  target_entries : List Val
  existing_ids : List String
  added_ids : List String
  already_present : List String
  unresolved_dependencies : List String
  copied_instruction_files : List String
  fs : Fs

/-- One iteration of the `for card_id in requested_ids` loop of
`install_role_bundle`. -/
def installStep (byId : String → Option Val) (catalog_root target_parent : String)
    (dry_run : Bool) (st : InstallState) (card_id : String) : InstallState :=
  if card_id ∈ st.existing_ids then
    { st with already_present := st.already_present ++ [card_id] }
  else
    match byId card_id with
    | none => { st with unresolved_dependencies := st.unresolved_dependencies ++ [card_id] }
    | some entry =>
      let instruction_file := pyStrip (pyStr (vGetD entry "instruction_file" (.str "")))
      let afterCopy :=
        if instruction_file ≠ "" then
          let source_instruction := joinPath catalog_root instruction_file
          let target_instruction := joinPath target_parent instruction_file
          if (st.fs source_instruction).isNone then none
          else if dry_run then
            if (st.fs target_instruction).isNone then
              some { st with copied_instruction_files :=
                st.copied_instruction_files ++ [target_instruction] }
            else some st
          else
            if (st.fs target_instruction).isNone then
              some { st with
                copied_instruction_files :=
                  st.copied_instruction_files ++ [target_instruction],
                fs := fsSet st.fs target_instruction
                  ((st.fs source_instruction).getD (.text "")) }
            else some st
        else some st
      match afterCopy with
      | none => { st with unresolved_dependencies := st.unresolved_dependencies ++ [card_id] }
      | some st' =>
        { st' with
          target_entries := st'.target_entries ++ [entry],
          existing_ids := st'.existing_ids ++ [card_id],
          added_ids := st'.added_ids ++ [card_id] }

/-- Embeds `install_role_bundle` from `roles.py`: resolve the role and its
dependencies from the catalog, merge the missing cards into the target
registry (copying instruction files alongside), and report what happened;
`dry_run` skips the registry write and the copies. -/
def install_role_bundle (fs : Fs) (catalog_registry target_registry role_id : String)
    (dry_run : Bool) : Except Err (InstallReport × Fs) :=
  let normalized_role_id := pyStrip role_id
  if normalized_role_id = "" then .error (.roleCatalog "`role_id` must be non-empty.")
  else
    match _load_catalog fs catalog_registry with
    | .error e => .error e
    | .ok (catalog_path, _, _, catalog_entries) =>
      let catalog_root := dirname catalog_path
      let byId := catalogById catalog_entries
      let known_ids := entryIds catalog_entries
      match byId normalized_role_id with
      | none => .error (.roleCatalog ("Role not found in catalog: " ++ normalized_role_id))
      | some role_entry =>
        if ¬ _is_role_entry role_entry then
          .error (.roleCatalog ("Card is not a role: " ++ normalized_role_id))
        else
          let dependency_ids :=
            _resolve_role_dependencies fs role_entry catalog_root known_ids
          let requested_ids := pyUnique (normalized_role_id :: dependency_ids)
          match _load_target_registry fs target_registry with
          | .error e => .error e
          | .ok (target_path, target_payload, target_key, target_entries) =>
            let st0 : InstallState :=
              ⟨target_entries, entryIds target_entries, [], [], [], [], fs⟩
            let st := requested_ids.foldl
              (installStep byId catalog_root (dirname target_path) dry_run) st0
            let final_payload := vSet target_payload target_key (.list st.target_entries)
            let report : InstallReport :=
              { role_id := normalized_role_id
                catalog_registry := catalog_path
                target_registry := target_path
                requested_ids := requested_ids
                dependency_ids := dependency_ids
                added_ids := st.added_ids
                already_present_ids := st.already_present
                unresolved_dependencies := st.unresolved_dependencies
                copied_instruction_files := st.copied_instruction_files
                dry_run := dry_run }
            if dry_run then .ok (report, st.fs)
            else
              match _write_registry_document st.fs target_path final_payload with
              | .error e => .error e
              | .ok fsOut => .ok (report, fsOut)

/-! ## Concrete fixtures used by witnesses and counterexamples -/

/-- A minimal card (only `id` and `title` populated). -/
def cardA : ExpertCard :=
  ⟨"a.tool", "alpha", "", "", [], [], [], [], "", [], [], "", "", "", []⟩

/-- A second minimal card with a larger id. -/
def cardB : ExpertCard :=
  ⟨"b.tool", "beta", "", "", [], [], [], [], "", [], [], "", "", "", []⟩

/-- A dense-off configuration over the memory backend. -/
def cfgMem : RetrieverConfig := { use_dense := false, backend := MemoryBackend }

/-- Two hits tied on fused score 0, distinguished by card id. -/
def hitA : RetrievalHit := ⟨cardA, 0, 1, none⟩

/-- Second tied hit. -/
def hitB : RetrievalHit := ⟨cardB, 0, 1, none⟩

/-- An environment whose loader returns an empty registry. -/
def envEmpty : RetrievalEnv :=
  ⟨fun _ => .ok "/r.yaml", fun _ => .ok [], fun _ => .ok MemoryBackend,
   fun _ _ _ => "", fun _ _ _ => ""⟩

/-- Catalog role entry used by the installer fixtures: depends on `t.a` and
shares its instruction file with it. -/
def roleEntryFx : Val := .obj [("id", .str "role.r"), ("tags", .list [.str "role"]),
  ("dependencies", .list [.str "t.a"]), ("instruction_file", .str "i.md")]

/-- Catalog tool entry sharing `i.md` with the role. -/
def depEntryFx : Val := .obj [("id", .str "t.a"), ("instruction_file", .str "i.md")]

/-- Installer fixture filesystem: a catalog under `c/` and no target registry. -/
def fsFx : Fs := fun p =>
  if p = "c/cat.json" then some (.doc (.obj [("tools", .list [roleEntryFx, depEntryFx])]))
  else if p = "c/i.md" then some (.text "instruction text") else none

/-- An environment whose loader returns the one-card corpus `[cardA]`. -/
def envCardA : RetrievalEnv :=
  ⟨fun _ => .ok "/r.yaml", fun _ => .ok [cardA], fun _ => .ok MemoryBackend,
   fun _ _ _ => "", fun _ _ _ => ""⟩

/-! ## C8: dry-run behaviour of the installer -/

/-- Role used by the aliasing counterexample: two dependencies whose
instruction files interact. -/
def roleAlias : Val := .obj [("id", .str "role.a"),
  ("dependencies", .list [.str "t.x", .str "t.y"])]

/-- First dependency: instruction `i.md` under the catalog root. -/
def txAlias : Val := .obj [("id", .str "t.x"), ("instruction_file", .str "i.md")]

/-- Second dependency: its instruction source path `a/b/i.md` coincides with
the copy target of the first dependency. -/
def tyAlias : Val := .obj [("id", .str "t.y"), ("instruction_file", .str "b/i.md")]

/-- Catalog at `a/cat.json`, target registry at `a/b/reg.json`: the target
directory lies inside the catalog root. -/
def fsAlias : Fs := fun p =>
  if p = "a/cat.json" then some (.doc (.obj [("tools", .list [roleAlias, txAlias, tyAlias])]))
  else if p = "a/i.md" then some (.text "x") else none

/-- The dry-run report produced on the `fsFx` fixture. -/
def repDfx : InstallReport :=
  ⟨"role.r", "c/cat.json", "t/reg.json", ["role.r", "t.a"], ["t.a"],
   ["role.r", "t.a"], [], [], ["t/i.md", "t/i.md"], true⟩

/-- The real-run report produced on the `fsFx` fixture. -/
def repRfx : InstallReport :=
  ⟨"role.r", "c/cat.json", "t/reg.json", ["role.r", "t.a"], ["t.a"],
   ["role.r", "t.a"], [], [], ["t/i.md"], false⟩

/-- The filesystem after a real run on the `fsFx` fixture: the copied
instruction file plus the written target registry. -/
def fsRealFx : Fs :=
  fsSet (fsSet fsFx "t/i.md" (.text "instruction text")) "t/reg.json"
    (.doc (.obj [("tools", .list [roleEntryFx, depEntryFx])]))

/-! ## Theorems -/

theorem dropWhile_nil_of_all {p : Char → Bool} :
    ∀ {l : List Char}, (∀ c ∈ l, p c = true) → l.dropWhile p = [] := by
  intro l h
  induction l with
  | nil => rfl
  | cons c cs ih =>
    rw [List.dropWhile_cons, if_pos (h c (by simp))]
    exact ih (fun x hx => h x (by simp [hx]))

theorem pyStrip_all_space {s : String} (h : ∀ c ∈ s.toList, isPySpace c = true) :
    pyStrip s = "" := by
  unfold pyStrip
  rw [dropWhile_nil_of_all h]
  rfl

/-- Stripping a string with no leading/trailing whitespace is itself;
stated for strings entirely free of whitespace, which covers how it is used
in the proofs below. -/
theorem pyStrip_no_space {s : String} (h : ∀ c ∈ s.toList, isPySpace c = false) :
    pyStrip s = s := by
  unfold pyStrip
  have h1 : s.toList.dropWhile isPySpace = s.toList := by
    cases hl : s.toList with
    | nil => rfl
    | cons c cs =>
      rw [List.dropWhile_cons]
      simp [h c (by rw [hl]; simp)]
  rw [h1]
  have h2 : s.toList.reverse.dropWhile isPySpace = s.toList.reverse := by
    cases hl : s.toList.reverse with
    | nil => rfl
    | cons c cs =>
      rw [List.dropWhile_cons]
      have : c ∈ s.toList := by
        have : c ∈ s.toList.reverse := by rw [hl]; simp
        simpa using this
      simp [h c this]
  rw [h2, List.reverse_reverse]
  rfl

theorem insertOrd_perm (lt : α → α → Bool) (x : α) :
    ∀ l : List α, (insertOrd lt x l).Perm (x :: l) := by
  intro l
  induction l with
  | nil => simp [insertOrd]
  | cons y ys ih =>
    cases h : lt y x with
    | true =>
      rw [insertOrd, if_pos h]
      exact (ih.cons y).trans (List.Perm.swap x y ys)
    | false =>
      rw [insertOrd, if_neg (by simp [h])]

theorem insortBy_perm (lt : α → α → Bool) :
    ∀ l : List α, (insortBy lt l).Perm l := by
  intro l
  induction l with
  | nil => simp [insortBy]
  | cons x xs ih =>
    exact (insertOrd_perm lt x (insortBy lt xs)).trans (ih.cons x)

theorem insertOrd_sorted (lt : α → α → Bool)
    (hasymm : ∀ a b, lt a b = true → lt b a = false)
    (hletrans : ∀ a b c, lt b a = false → lt c b = false → lt c a = false)
    (x : α) : ∀ {l : List α}, SortedBy lt l → SortedBy lt (insertOrd lt x l) := by
  intro l hl
  induction l with
  | nil => simp [insertOrd, SortedBy]
  | cons y ys ih =>
    rcases List.pairwise_cons.mp hl with ⟨hy, hys⟩
    cases h : lt y x with
    | true =>
      rw [insertOrd, if_pos h]
      refine List.pairwise_cons.mpr ⟨?_, ih hys⟩
      intro z hz
      have hz' := (insertOrd_perm lt x ys).mem_iff.mp hz
      rcases List.mem_cons.mp hz' with hzx | hzy
      · rw [hzx]; exact hasymm y x h
      · exact hy z hzy
    | false =>
      rw [insertOrd, if_neg (by simp [h])]
      refine List.pairwise_cons.mpr ⟨?_, hl⟩
      intro z hz
      rcases List.mem_cons.mp hz with hzy | hzys
      · subst hzy; exact h
      · exact hletrans x y z h (hy z hzys)

theorem insortBy_sorted (lt : α → α → Bool)
    (hasymm : ∀ a b, lt a b = true → lt b a = false)
    (hletrans : ∀ a b c, lt b a = false → lt c b = false → lt c a = false) :
    ∀ l : List α, SortedBy lt (insortBy lt l) := by
  intro l
  induction l with
  | nil => simp [insortBy, SortedBy]
  | cons x xs ih => exact insertOrd_sorted lt hasymm hletrans x ih

/-- Two sorted permutations of each other agree, provided the order is
antisymmetric on the elements involved.  This is what makes the ranked output
canonical (independent of enumeration order). -/
theorem sorted_perm_eq (lt : α → α → Bool) :
    ∀ {l₁ l₂ : List α}, l₁.Perm l₂ → SortedBy lt l₁ → SortedBy lt l₂ →
      (∀ a ∈ l₁, ∀ b ∈ l₁, lt a b = false → lt b a = false → a = b) →
      l₁ = l₂ := by
  intro l₁
  induction l₁ with
  | nil => intro l₂ hp _ _ _; simpa using hp.nil_eq
  | cons a t₁ ih =>
    intro l₂ hp hs₁ hs₂ hanti
    cases l₂ with
    | nil => exact absurd hp.symm.nil_eq (by simp)
    | cons b t₂ =>
      have hab : a = b := by
        by_contra hne
        have hamem : a ∈ b :: t₂ := hp.mem_iff.mp (by simp)
        have hbmem : b ∈ a :: t₁ := hp.mem_iff.mpr (by simp)
        have hat₂ : a ∈ t₂ := by
          rcases List.mem_cons.mp hamem with h | h
          · exact absurd h hne
          · exact h
        have hbt₁ : b ∈ t₁ := by
          rcases List.mem_cons.mp hbmem with h | h
          · exact absurd h.symm hne
          · exact h
        have h1 : lt b a = false :=
          (List.pairwise_cons.mp hs₁).1 b hbt₁
        have h2 : lt a b = false :=
          (List.pairwise_cons.mp hs₂).1 a hat₂
        exact hne (hanti a (by simp) b (by simp [hbt₁]) h2 h1)
      subst hab
      have hp' : t₁.Perm t₂ := hp.cons_inv
      have := ih hp' (List.pairwise_cons.mp hs₁).2 (List.pairwise_cons.mp hs₂).2
        (fun x hx y hy => hanti x (by simp [hx]) y (by simp [hy]))
      rw [this]

/-! ## Order lemmas for the comparison functions -/

theorem charsLt_asymm : ∀ (x y : List Char), charsLt x y = true → charsLt y x = false := by
  intro x
  induction x with
  | nil =>
    intro y h
    cases y with
    | nil => simp [charsLt] at h
    | cons b bs => simp [charsLt]
  | cons a as ih =>
    intro y h
    cases y with
    | nil => simp [charsLt] at h
    | cons b bs =>
      by_cases h1 : a.toNat < b.toNat
      · have h1' : ¬ b.toNat < a.toNat := by omega
        simp [charsLt, h1, h1']
      · by_cases h2 : b.toNat < a.toNat
        · simp [charsLt, h1, h2] at h
        · have h' : charsLt as bs = true := by simpa [charsLt, h1, h2] using h
          simp [charsLt, h1, h2, ih bs h']

theorem charsLt_le_trans : ∀ (x y z : List Char), charsLt y x = false →
    charsLt z y = false → charsLt z x = false := by
  intro x
  induction x with
  | nil =>
    intro y z h1 h2
    cases z with
    | nil => rfl
    | cons c cs => rfl
  | cons a as ih =>
    intro y z h1 h2
    cases y with
    | nil => simp [charsLt] at h1
    | cons b bs =>
      cases z with
      | nil => simp [charsLt] at h2
      | cons c cs =>
        have hba : ¬ b.toNat < a.toNat := by
          intro hlt
          simp [charsLt, hlt] at h1
        have hcb : ¬ c.toNat < b.toNat := by
          intro hlt
          simp [charsLt, hlt] at h2
        have hca : ¬ c.toNat < a.toNat := by omega
        by_cases hac : a.toNat < c.toNat
        · simp [charsLt, hca, hac]
        · have h1' : charsLt bs as = false := by
            have hab' : ¬ a.toNat < b.toNat := by omega
            simpa [charsLt, hba, hab'] using h1
          have h2' : charsLt cs bs = false := by
            have hbc' : ¬ b.toNat < c.toNat := by omega
            simpa [charsLt, hcb, hbc'] using h2
          simp [charsLt, hca, hac, ih bs cs h1' h2']

theorem charsLt_antisymm : ∀ (x y : List Char), charsLt x y = false →
    charsLt y x = false → x = y := by
  intro x
  induction x with
  | nil =>
    intro y h1 _
    cases y with
    | nil => rfl
    | cons b bs => simp [charsLt] at h1
  | cons a as ih =>
    intro y h1 h2
    cases y with
    | nil => simp [charsLt] at h2
    | cons b bs =>
      have hab : ¬ a.toNat < b.toNat := by
        intro hlt
        simp [charsLt, hlt] at h1
      have hba : ¬ b.toNat < a.toNat := by
        intro hlt
        simp [charsLt, hlt] at h2
      have htn : a.toNat = b.toNat := by omega
      have hchar : a = b := Char.ext (UInt32.ext htn)
      have h1' : charsLt as bs = false := by simpa [charsLt, hab, hba] using h1
      have h2' : charsLt bs as = false := by simpa [charsLt, hab, hba] using h2
      rw [hchar, ih bs h1' h2']

theorem strLt_asymm {a b : String} (h : strLt a b = true) : strLt b a = false :=
  charsLt_asymm a.toList b.toList h

theorem strLt_le_trans {a b c : String} (h1 : strLt b a = false)
    (h2 : strLt c b = false) : strLt c a = false :=
  charsLt_le_trans a.toList b.toList c.toList h1 h2

theorem strLt_antisymm {a b : String} (h1 : strLt a b = false)
    (h2 : strLt b a = false) : a = b :=
  String.toList_inj.mp (charsLt_antisymm a.toList b.toList h1 h2)

theorem hitLT_asymm : ∀ a b : RetrievalHit, hitLT a b = true → hitLT b a = false := by
  intro a b h
  rw [hitLT, Bool.or_eq_false_iff, Bool.and_eq_false_iff]
  rcases Bool.or_eq_true_iff.mp h with h1 | h1
  · have hlt : b.score < a.score := of_decide_eq_true h1
    refine ⟨decide_eq_false (lt_asymm hlt), Or.inl ?_⟩
    exact decide_eq_false (fun hc => absurd (hc ▸ hlt) (lt_irrefl _))
  · rcases Bool.and_eq_true_iff.mp h1 with ⟨he, hs⟩
    have heq : a.score = b.score := of_decide_eq_true he
    refine ⟨decide_eq_false (by simp [heq]), Or.inr (strLt_asymm hs)⟩

theorem hitLT_le_trans : ∀ a b c : RetrievalHit, hitLT b a = false →
    hitLT c b = false → hitLT c a = false := by
  intro a b c h1 h2
  rcases Bool.or_eq_false_iff.mp h1 with ⟨h1l, h1r⟩
  rcases Bool.or_eq_false_iff.mp h2 with ⟨h2l, h2r⟩
  have hba : b.score ≤ a.score := le_of_not_lt (of_decide_eq_false h1l)
  have hcb : c.score ≤ b.score := le_of_not_lt (of_decide_eq_false h2l)
  rw [hitLT, Bool.or_eq_false_iff, Bool.and_eq_false_iff]
  refine ⟨decide_eq_false (not_lt.mpr (le_trans hcb hba)), ?_⟩
  by_cases hcs : c.score = a.score
  · right
    have hsba : b.score = a.score := le_antisymm hba (by rw [← hcs]; exact hcb)
    have hscb : c.score = b.score := hcs.trans hsba.symm
    have h1s : strLt b.card.id a.card.id = false := by
      simpa [hsba] using h1r
    have h2s : strLt c.card.id b.card.id = false := by
      simpa [hscb] using h2r
    exact strLt_le_trans h1s h2s
  · exact Or.inl (decide_eq_false hcs)

theorem hitLT_antisymm_ids {a b : RetrievalHit} (h1 : hitLT a b = false)
    (h2 : hitLT b a = false) : a.score = b.score ∧ a.card.id = b.card.id := by
  rcases Bool.or_eq_false_iff.mp h1 with ⟨h1l, h1r⟩
  rcases Bool.or_eq_false_iff.mp h2 with ⟨h2l, h2r⟩
  have hba : a.score ≤ b.score := le_of_not_lt (of_decide_eq_false h1l)
  have hab : b.score ≤ a.score := le_of_not_lt (of_decide_eq_false h2l)
  have hs : a.score = b.score := le_antisymm hba hab
  refine ⟨hs, ?_⟩
  have h1s : strLt a.card.id b.card.id = false := by simpa [hs] using h1r
  have h2s : strLt b.card.id a.card.id = false := by simpa [hs] using h2r
  exact strLt_antisymm h1s h2s

theorem offerLT_asymm : ∀ a b : RoleOffer, offerLT a b = true → offerLT b a = false := by
  intro a b h
  exact strLt_asymm h

theorem offerLT_le_trans : ∀ a b c : RoleOffer, offerLT b a = false →
    offerLT c b = false → offerLT c a = false := by
  intro a b c h1 h2
  exact strLt_le_trans h1 h2

/-! ## Helper evaluations for witnesses -/

theorem sparseScore_cardA : sparseScore [cardA] cardA "alpha" = 1 := by
  have hq : (tokenize "alpha").dedup = ["alpha"] := by decide
  have htf : ((cardTokens cardA).filter (fun u => u = "alpha")).length = 1 := by decide
  have hdf : ([cardA].filter (fun d => "alpha" ∈ cardTokens d)).length = 1 := by decide
  have hdl : (cardTokens cardA).length = 1 := by decide
  simp only [sparseScore, hq, htf, hdf, hdl, List.map_cons, List.map_nil, List.sum_cons,
    List.sum_nil, List.length_cons, List.length_nil]
  norm_num

theorem retrieve_cardA : SkillRetriever.retrieve [cardA] cfgMem "alpha" 2 =
    .ok [⟨cardA, 1, 1, none⟩] := by
  unfold SkillRetriever.retrieve
  rw [if_neg (by omega), show (2 : Int).toNat = 2 from rfl]
  have hc : candidateHits [cardA] cfgMem "alpha" 2 = [⟨cardA, 1, 1, none⟩] := by
    simp [candidateHits, denseActive, cfgMem, MemoryBackend, sparseScore_cardA]
  rw [hc]
  rfl

/-! ## Claim theorems -/

/-- C5: for every corpus, configuration, query and integer `top_k ≥ 1`, a
successful `retrieve(query, top_k)` returns a sequence of length at most
`top_k` (spec §8; the sequence is truncated to the first `top_k` entries). -/
theorem retrieve_returns_at_most_topK (corpus : List ExpertCard)
    (cfg : RetrieverConfig) (query : String) (topK : Int)
    (hits : List RetrievalHit) (hk : 1 ≤ topK)
    (h : SkillRetriever.retrieve corpus cfg query topK = .ok hits) :
    (hits.length : Int) ≤ topK := by
  unfold SkillRetriever.retrieve at h
  rw [if_neg (by omega)] at h
  injection h with h
  subst h
  have h1 : (rankHits (candidateHits corpus cfg query topK.toNat) topK.toNat).length
      ≤ topK.toNat := by
    unfold rankHits
    exact List.length_take_le _ _
  calc ((rankHits (candidateHits corpus cfg query topK.toNat) topK.toNat).length : Int)
      ≤ (topK.toNat : Int) := by exact_mod_cast h1
    _ = topK := Int.toNat_of_nonneg (by omega)

theorem retrieve_returns_at_most_topK_witness :
    (1 : Int) ≤ 3 ∧ ((([] : List RetrievalHit)).length : Int) ≤ 3 :=
  ⟨by decide, retrieve_returns_at_most_topK [] cfgMem "query" 3 [] (by decide) rfl⟩

/-- C7: whenever dense scoring is disabled (`use_dense = false`), every hit a
successful `retrieve` returns has `dense_score` absent and fused `score`
equal to `sparse_score` (spec §4.3 step 1, §8). -/
theorem dense_disabled_hits (corpus : List ExpertCard) (cfg : RetrieverConfig)
    (query : String) (topK : Int) (hits : List RetrievalHit)
    (hd : cfg.use_dense = false)
    (h : SkillRetriever.retrieve corpus cfg query topK = .ok hits) :
    ∀ hit ∈ hits, hit.dense_score = none ∧ hit.score = hit.sparse_score := by
  intro hit hmem
  unfold SkillRetriever.retrieve at h
  by_cases hk : topK < 1
  · rw [if_pos hk] at h
    exact absurd h (by simp)
  · rw [if_neg hk] at h
    injection h with h
    subst h
    have h1 : hit ∈ insortBy hitLT
        ((candidateHits corpus cfg query topK.toNat).filter hasSignal) :=
      List.take_subset _ _ hmem
    have h2 : hit ∈ (candidateHits corpus cfg query topK.toNat).filter hasSignal :=
      (insortBy_perm hitLT _).mem_iff.mp h1
    have h3 : hit ∈ candidateHits corpus cfg query topK.toNat :=
      (List.mem_filter.mp h2).1
    have hda : denseActive cfg = false := by simp [denseActive, hd]
    rw [candidateHits, hda] at h3
    simp only [Bool.false_eq_true, if_false, List.map_map, List.mem_map] at h3
    rcases h3 with ⟨c, _, hpe⟩
    rw [← hpe]
    exact ⟨rfl, rfl⟩

theorem dense_disabled_hits_witness :
    cfgMem.use_dense = false ∧
      ((⟨cardA, 1, 1, none⟩ : RetrievalHit).dense_score = none ∧
        (⟨cardA, 1, 1, none⟩ : RetrievalHit).score =
          (⟨cardA, 1, 1, none⟩ : RetrievalHit).sparse_score) :=
  ⟨rfl, dense_disabled_hits [cardA] cfgMem "alpha" 2 [⟨cardA, 1, 1, none⟩] rfl
    retrieve_cardA ⟨cardA, 1, 1, none⟩ (by simp)⟩

/-- C6: retrieval is deterministic — the model of `retrieve` is a pure
function of (corpus, config, query, top_k), and the ranked output is
canonical: it does not depend on the order in which the candidates were
enumerated, because the sort key (fused score descending, card id ascending)
is antisymmetric whenever card ids are unique (spec §8, §4.3 step 4). -/
theorem retrieve_deterministic :
    (∀ (corpus : List ExpertCard) (cfg : RetrieverConfig) (query : String)
        (topK : Int),
      SkillRetriever.retrieve corpus cfg query topK =
        SkillRetriever.retrieve corpus cfg query topK)
    ∧ (∀ (cands₁ cands₂ : List RetrievalHit) (topK : Nat), cands₁.Perm cands₂ →
        (cands₁.map (fun h => h.card.id)).Nodup →
        rankHits cands₁ topK = rankHits cands₂ topK) := by
  refine ⟨fun _ _ _ _ => rfl, ?_⟩
  intro c1 c2 k hperm hnodup
  unfold rankHits
  have hpf : (c1.filter hasSignal).Perm (c2.filter hasSignal) := hperm.filter _
  have hp : (insortBy hitLT (c1.filter hasSignal)).Perm
      (insortBy hitLT (c2.filter hasSignal)) :=
    ((insortBy_perm hitLT _).trans hpf).trans (insortBy_perm hitLT _).symm
  have heq : insortBy hitLT (c1.filter hasSignal) = insortBy hitLT (c2.filter hasSignal) := by
    apply sorted_perm_eq hitLT hp
      (insortBy_sorted hitLT hitLT_asymm hitLT_le_trans _)
      (insortBy_sorted hitLT hitLT_asymm hitLT_le_trans _)
    intro x hx y hy hxy hyx
    have hx' : x ∈ c1 := (List.mem_filter.mp ((insortBy_perm hitLT _).mem_iff.mp hx)).1
    have hy' : y ∈ c1 := (List.mem_filter.mp ((insortBy_perm hitLT _).mem_iff.mp hy)).1
    rcases hitLT_antisymm_ids hxy hyx with ⟨_, hid⟩
    exact List.inj_on_of_nodup_map hnodup hx' hy' hid
  rw [heq]

theorem retrieve_deterministic_witness :
    rankHits [hitA, hitB] 5 = rankHits [hitB, hitA] 5 :=
  retrieve_deterministic.2 [hitA, hitB] [hitB, hitA] 5 (by decide) (by decide)

/-- C1: for every integer `top_k < 1`, retrieval raises a configuration error
(`ValueError`, the spec's `ConfigurationError`) instead of clamping: both MCP
entry points reject it during normalization, and the retriever itself rejects
it for callers (the CLI) that pass it through unnormalized (spec §4.3, §8). -/
theorem topk_below_one_raises (env : RetrievalEnv) (query : String)
    (registry : Option String) (top_k : Int) (backend : String) (dense : Bool)
    (provider : String) (instruction_chars : Int) (hk : top_k < 1) :
    (∃ m, (retrieve_cards_payload env query registry top_k backend dense).fst =
      .error (.config m))
    ∧ (∃ m, (build_routed_context env query registry top_k backend dense provider
        instruction_chars).fst = .error (.config m))
    ∧ (∀ (corpus : List ExpertCard) (cfg : RetrieverConfig) (q : String),
        SkillRetriever.retrieve corpus cfg q top_k =
          .error (.config "`top_k` must be >= 1.")) := by
  have hrh : ∃ m, _retrieve_hits env query registry top_k backend dense =
      (.error (.config m), []) := by
    by_cases hq : pyStrip query = ""
    · exact ⟨"`query` must be a non-empty string.", by
        simp [_retrieve_hits, _normalize_query, hq]⟩
    · exact ⟨"`top_k` must be >= 1.", by
        simp [_retrieve_hits, _normalize_query, hq, _normalize_top_k, hk]⟩
  rcases hrh with ⟨m, hm⟩
  refine ⟨⟨m, by simp [retrieve_cards_payload, hm]⟩, ?_, ?_⟩
  · by_cases hp : strToLower (pyStrip provider) ∈ _VALID_PROVIDERS
    · by_cases hic : instruction_chars < 100
      · exact ⟨"`instruction_chars` must be >= 100.", by
          simp [build_routed_context, _normalize_provider, hp, hic]⟩
      · exact ⟨m, by simp [build_routed_context, _normalize_provider, hp, hic, hm]⟩
    · exact ⟨"`provider` must be one of: claude, codex.", by
        simp [build_routed_context, _normalize_provider, hp]⟩
  · intro corpus cfg q
    simp [SkillRetriever.retrieve, hk]

theorem topk_below_one_raises_witness :
    (0 : Int) < 1 ∧ SkillRetriever.retrieve [] cfgMem "q" 0 =
      .error (.config "`top_k` must be >= 1.") :=
  ⟨by decide,
   (topk_below_one_raises envEmpty "q" none 0 "auto" false "claude" 700
     (by decide)).2.2 [] cfgMem "q"⟩

/-- C3: a query that is empty or whitespace-only is rejected with a
configuration error by both MCP-facing entry points, and the empty effect
trace shows this happens before any registry resolution/loading or retrieval
(spec §7). -/
theorem empty_query_raises_before_load (env : RetrievalEnv) (query : String)
    (registry : Option String) (top_k : Int) (backend : String) (dense : Bool)
    (provider : String) (instruction_chars : Int) (hq : pyStrip query = "") :
    retrieve_cards_payload env query registry top_k backend dense =
      (.error (.config "`query` must be a non-empty string."), [])
    ∧ (∃ m, build_routed_context env query registry top_k backend dense provider
        instruction_chars = (.error (.config m), [])) := by
  have hm : _retrieve_hits env query registry top_k backend dense =
      (.error (.config "`query` must be a non-empty string."), []) := by
    simp [_retrieve_hits, _normalize_query, hq]
  refine ⟨by simp [retrieve_cards_payload, hm], ?_⟩
  by_cases hp : strToLower (pyStrip provider) ∈ _VALID_PROVIDERS
  · by_cases hic : instruction_chars < 100
    · exact ⟨"`instruction_chars` must be >= 100.", by
        simp [build_routed_context, _normalize_provider, hp, hic]⟩
    · exact ⟨"`query` must be a non-empty string.", by
        simp [build_routed_context, _normalize_provider, hp, hic, hm]⟩
  · exact ⟨"`provider` must be one of: claude, codex.", by
      simp [build_routed_context, _normalize_provider, hp]⟩

theorem empty_query_raises_before_load_witness :
    retrieve_cards_payload envEmpty "   " none 3 "auto" false =
      (.error (.config "`query` must be a non-empty string."), []) :=
  (empty_query_raises_before_load envEmpty "   " none 3 "auto" false "claude" 700
    (by decide)).1

/-- C4 counterexample: the empty backend string normalizes (after strip and
lowercase) to `""`, which is outside {auto, memory, chroma}, yet retrieval
does not raise: `backend or "auto"` silently replaces `""` with the default
`"auto"` and the call succeeds. -/
theorem backend_empty_string_accepted :
    strToLower (pyStrip "") ∉ _VALID_BACKENDS
    ∧ _normalize_backend "" = .ok "auto"
    ∧ (_retrieve_hits envEmpty "alpha" none 2 "" false).fst =
        .ok ("alpha", "/r.yaml", []) :=
  ⟨by decide, by rfl, by rfl⟩

/-- C4 (amended): every NON-EMPTY backend string whose stripped lowercased
form is outside {auto, memory, chroma} makes retrieval raise a configuration
error, and every string whose normalized form is in that set is accepted; the
empty string is the one exception — it is silently replaced by the default
`auto` rather than rejected. -/
theorem backend_validation (backend : String) :
    (backend ≠ "" → strToLower (pyStrip backend) ∉ _VALID_BACKENDS →
      _normalize_backend backend =
        .error (.config "`backend` must be one of: auto, memory, chroma."))
    ∧ (strToLower (pyStrip backend) ∈ _VALID_BACKENDS →
      _normalize_backend backend = .ok (strToLower (pyStrip backend))) := by
  constructor
  · intro hne hout
    simp [_normalize_backend, pyOr, hne, hout]
  · intro hin
    by_cases hne : backend = ""
    · rw [hne] at hin
      exact absurd hin (by decide)
    · simp [_normalize_backend, pyOr, hne, hin]

theorem backend_validation_witness :
    ("bogus" : String) ≠ ""
    ∧ _normalize_backend "bogus" =
        .error (.config "`backend` must be one of: auto, memory, chroma.")
    ∧ _normalize_backend "MEMORY" = .ok "memory" :=
  ⟨by decide, (backend_validation "bogus").1 (by decide) (by decide),
   by simpa using (backend_validation "MEMORY").2 (by decide)⟩

theorem retrieve_hits_envCardA :
    _retrieve_hits envCardA "alpha" none 2 "auto" false =
      (.ok ("alpha", "/r.yaml", [⟨cardA, 1, 1, none⟩]),
       [.resolveRegistryPath, .loadRegistry "/r.yaml", .resolveBackend "auto"]) := by
  have h1 : _normalize_query "alpha" = .ok "alpha" := by rfl
  have h2 : _normalize_top_k 2 = .ok 2 := by rfl
  have h3 : _normalize_backend "auto" = .ok "auto" := by rfl
  have hr : SkillRetriever.retrieve [cardA]
      { use_dense := false, backend := MemoryBackend } "alpha" 2 =
      .ok [⟨cardA, 1, 1, none⟩] := retrieve_cardA
  simp [_retrieve_hits, h1, h2, h3, envCardA, hr]

/-- C2: every emitted hit payload carries the full card payload — the 15 card
fields in source order — plus `score`, `sparse_score` and `dense_score`
(`dense_score` null exactly when absent), and `retrieve_cards_payload` emits
exactly one such payload per retrieved hit (spec §6). -/
theorem hit_payload_complete (hit : RetrievalHit) :
    ((hitPayload hit).map Prod.fst =
      ["id", "title", "domain", "description", "tags", "tool_hints", "aliases",
       "dependencies", "input_contract", "output_artifacts", "quality_checks",
       "constraints", "risk_level", "maturity", "metadata", "score",
       "sparse_score", "dense_score"])
    ∧ ((hitPayload hit).lookup "id" = some (.s hit.card.id)
      ∧ (hitPayload hit).lookup "title" = some (.s hit.card.title)
      ∧ (hitPayload hit).lookup "domain" = some (.s hit.card.domain)
      ∧ (hitPayload hit).lookup "description" = some (.s hit.card.description)
      ∧ (hitPayload hit).lookup "tags" = some (.strs hit.card.tags)
      ∧ (hitPayload hit).lookup "tool_hints" = some (.strs hit.card.tool_hints)
      ∧ (hitPayload hit).lookup "aliases" = some (.strs hit.card.aliases)
      ∧ (hitPayload hit).lookup "dependencies" = some (.strs hit.card.dependencies)
      ∧ (hitPayload hit).lookup "input_contract" = some (.s hit.card.input_contract)
      ∧ (hitPayload hit).lookup "output_artifacts" = some (.strs hit.card.output_artifacts)
      ∧ (hitPayload hit).lookup "quality_checks" = some (.strs hit.card.quality_checks)
      ∧ (hitPayload hit).lookup "constraints" = some (.s hit.card.constraints)
      ∧ (hitPayload hit).lookup "risk_level" = some (.s hit.card.risk_level)
      ∧ (hitPayload hit).lookup "maturity" = some (.s hit.card.maturity)
      ∧ (hitPayload hit).lookup "metadata" = some (.map hit.card.metadata)
      ∧ (hitPayload hit).lookup "score" = some (.q hit.score)
      ∧ (hitPayload hit).lookup "sparse_score" = some (.q hit.sparse_score)
      ∧ (hitPayload hit).lookup "dense_score" =
          some (match hit.dense_score with
                | none => PVal.null
                | some d => PVal.q d))
    ∧ (∀ (env : RetrievalEnv) (query : String) (registry : Option String)
        (top_k : Int) (backend : String) (dense : Bool) (resolvedQuery : String)
        (registryPath : String) (hits : List RetrievalHit) (trace : List Effect),
        _retrieve_hits env query registry top_k backend dense =
          (.ok (resolvedQuery, registryPath, hits), trace) →
        retrieve_cards_payload env query registry top_k backend dense =
          (.ok ⟨resolvedQuery, registryPath, hits.map hitPayload⟩, trace)) := by
  refine ⟨rfl, ⟨rfl, rfl, rfl, rfl, rfl, rfl, rfl, rfl, rfl, rfl, rfl, rfl, rfl,
    rfl, rfl, rfl, rfl, rfl⟩, ?_⟩
  intro env query registry top_k backend dense rq rp hits trace h
  simp [retrieve_cards_payload, h]

theorem hit_payload_complete_witness :
    ((hitPayload ⟨cardA, 1, 1, none⟩).map Prod.fst =
      ["id", "title", "domain", "description", "tags", "tool_hints", "aliases",
       "dependencies", "input_contract", "output_artifacts", "quality_checks",
       "constraints", "risk_level", "maturity", "metadata", "score",
       "sparse_score", "dense_score"])
    ∧ retrieve_cards_payload envCardA "alpha" none 2 "auto" false =
        (.ok ⟨"alpha", "/r.yaml", [hitPayload ⟨cardA, 1, 1, none⟩]⟩,
         [.resolveRegistryPath, .loadRegistry "/r.yaml", .resolveBackend "auto"]) :=
  ⟨(hit_payload_complete ⟨cardA, 1, 1, none⟩).1,
   (hit_payload_complete ⟨cardA, 1, 1, none⟩).2.2 envCardA "alpha" none 2 "auto"
     false "alpha" "/r.yaml" [⟨cardA, 1, 1, none⟩]
     [.resolveRegistryPath, .loadRegistry "/r.yaml", .resolveBackend "auto"]
     retrieve_hits_envCardA⟩

/-! ## `pyStrip` and `pyUnique` structural lemmas -/

theorem dropWhile_head_not {p : Char → Bool} :
    ∀ {l : List Char} {c : Char} {cs : List Char}, l.dropWhile p = c :: cs → p c = false := by
  intro l
  induction l with
  | nil => intro c cs h; simp [List.dropWhile] at h
  | cons a as ih =>
    intro c cs h
    rw [List.dropWhile_cons] at h
    by_cases ha : p a = true
    · rw [if_pos ha] at h
      exact ih h
    · rw [if_neg ha] at h
      cases h
      simpa using ha

theorem dropWhile_eq_self_of_head {p : Char → Bool} {l : List Char}
    (h : ∀ c cs, l = c :: cs → p c = false) : l.dropWhile p = l := by
  cases l with
  | nil => rfl
  | cons c cs => rw [List.dropWhile_cons, if_neg (by simp [h c cs rfl])]

theorem strip_edges_eq_self {l : List Char}
    (hhead : ∀ c cs, l = c :: cs → isPySpace c = false)
    (hlast : ∀ c cs, l.reverse = c :: cs → isPySpace c = false) :
    pyStrip (List.asString l) = List.asString l := by
  unfold pyStrip
  rw [show (List.asString l).toList = l from rfl]
  rw [dropWhile_eq_self_of_head hhead]
  rw [dropWhile_eq_self_of_head hlast]
  rw [List.reverse_reverse]

theorem pyStrip_idem (s : String) : pyStrip (pyStrip s) = pyStrip s := by
  have hhead : ∀ c cs,
      ((s.toList.dropWhile isPySpace).reverse.dropWhile isPySpace).reverse = c :: cs →
      isPySpace c = false := by
    intro c cs h
    have hne : (s.toList.dropWhile isPySpace).reverse.dropWhile isPySpace ≠ [] := by
      intro h0
      rw [h0] at h
      simp at h
    have hsuff : (s.toList.dropWhile isPySpace).reverse.dropWhile isPySpace <:+
        (s.toList.dropWhile isPySpace).reverse := List.dropWhile_suffix isPySpace
    obtain ⟨t, ht⟩ := hsuff
    have hlast2 : ((s.toList.dropWhile isPySpace).reverse.dropWhile isPySpace).getLast?
        = (s.toList.dropWhile isPySpace).reverse.getLast? := by
      conv_rhs => rw [← ht]
      exact (List.getLast?_append_of_ne_nil t hne).symm
    have hc : (((s.toList.dropWhile isPySpace).reverse.dropWhile
        isPySpace).reverse).head? = some c := by
      rw [h]
      rfl
    rw [List.head?_reverse, hlast2, List.getLast?_reverse] at hc
    cases hl : s.toList.dropWhile isPySpace with
    | nil => rw [hl] at hc; simp at hc
    | cons e es =>
      rw [hl] at hc
      simp at hc
      rw [← hc]
      exact dropWhile_head_not hl
  have hlast : ∀ c cs,
      (((s.toList.dropWhile isPySpace).reverse.dropWhile isPySpace).reverse).reverse =
        c :: cs → isPySpace c = false := by
    intro c cs h
    rw [List.reverse_reverse] at h
    exact dropWhile_head_not h
  exact strip_edges_eq_self hhead hlast

theorem pyUniqueFrom_nodup_notin (vs : List String) :
    ∀ seen : List String, (pyUniqueFrom seen vs).Nodup ∧
      ∀ x ∈ pyUniqueFrom seen vs, x ∉ seen := by
  induction vs with
  | nil => intro seen; simp [pyUniqueFrom]
  | cons v vs ih =>
    intro seen
    rw [pyUniqueFrom]
    by_cases hskip : pyStrip v = "" ∨ pyStrip v ∈ seen
    · rw [if_pos hskip]
      exact ih seen
    · rw [if_neg hskip]
      rcases ih (pyStrip v :: seen) with ⟨hnd, hni⟩
      refine ⟨List.nodup_cons.mpr ⟨fun hmem => ?_, hnd⟩, ?_⟩
      · exact absurd (by simp) (hni (pyStrip v) hmem)
      · intro x hx
        rcases List.mem_cons.mp hx with hx1 | hx2
        · rw [hx1]
          intro hcon
          exact hskip (Or.inr hcon)
        · intro hcon
          exact hni x hx2 (by simp [hcon])

theorem pyUnique_nodup (vs : List String) : (pyUnique vs).Nodup :=
  (pyUniqueFrom_nodup_notin vs []).1

theorem pyUnique_head (v : String) (vs : List String) (hv : pyStrip v ≠ "") :
    pyUnique (v :: vs) = pyStrip v :: pyUniqueFrom [pyStrip v] vs := by
  rw [pyUnique, pyUniqueFrom, if_neg (by simp [hv])]

/-! ## Install-loop partition lemma -/

theorem perm_app_fst (A B C : List α) (i : α) :
    ((A ++ [i]) ++ B ++ C).Perm ((A ++ B ++ C) ++ [i]) := by
  rw [← Multiset.coe_eq_coe]
  simp only [← Multiset.coe_add]
  abel

theorem perm_app_mid (A B C : List α) (i : α) :
    (A ++ (B ++ [i]) ++ C).Perm ((A ++ B ++ C) ++ [i]) := by
  rw [← Multiset.coe_eq_coe]
  simp only [← Multiset.coe_add]
  abel

theorem perm_app_lst (A B C : List α) (i : α) :
    (A ++ B ++ (C ++ [i])).Perm ((A ++ B ++ C) ++ [i]) := by
  rw [← Multiset.coe_eq_coe]
  simp only [← Multiset.coe_add]
  abel

theorem installStep_triple (byId : String → Option Val) (cr tp : String)
    (dry : Bool) (st : InstallState) (i : String) :
    ((installStep byId cr tp dry st i).added_ids
      ++ (installStep byId cr tp dry st i).already_present
      ++ (installStep byId cr tp dry st i).unresolved_dependencies).Perm
    ((st.added_ids ++ st.already_present ++ st.unresolved_dependencies) ++ [i]) := by
  rw [installStep]
  by_cases hmem : i ∈ st.existing_ids
  · rw [if_pos hmem]
    exact perm_app_mid _ _ _ _
  · rw [if_neg hmem]
    cases hby : byId i with
    | none =>
      dsimp only
      exact perm_app_lst _ _ _ _
    | some entry =>
      dsimp only
      split_ifs <;> dsimp only <;>
        first
          | exact perm_app_lst _ _ _ _
          | exact perm_app_fst _ _ _ _

theorem install_fold_partition (byId : String → Option Val) (cr tp : String)
    (dry : Bool) : ∀ (ids : List String) (st : InstallState),
    ((ids.foldl (installStep byId cr tp dry) st).added_ids
      ++ (ids.foldl (installStep byId cr tp dry) st).already_present
      ++ (ids.foldl (installStep byId cr tp dry) st).unresolved_dependencies).Perm
    ((st.added_ids ++ st.already_present ++ st.unresolved_dependencies) ++ ids) := by
  intro ids
  induction ids with
  | nil => intro st; simp
  | cons i is ih =>
    intro st
    rw [List.foldl_cons]
    refine (ih (installStep byId cr tp dry st i)).trans ?_
    refine ((installStep_triple byId cr tp dry st i).append_right is).trans ?_
    rw [List.append_assoc]
    exact List.Perm.refl _

/-- C9: every successful `install_role_bundle` reports a duplicate-free
`requested_ids` headed by the (stripped) requested role id and continuing with
its resolved dependency ids, and `added_ids`, `already_present_ids`,
`unresolved_dependencies` partition `requested_ids`: concatenated they are a
permutation of it, so every requested id lands in exactly one bucket. -/
theorem install_report_partition (fs : Fs) (catalog_registry target_registry
    role_id : String) (dry_run : Bool) (report : InstallReport) (fsOut : Fs)
    (h : install_role_bundle fs catalog_registry target_registry role_id dry_run =
      .ok (report, fsOut)) :
    report.requested_ids.Nodup
    ∧ report.requested_ids.head? = some (pyStrip role_id)
    ∧ report.requested_ids = pyUnique (pyStrip role_id :: report.dependency_ids)
    ∧ (report.added_ids ++ report.already_present_ids
        ++ report.unresolved_dependencies).Perm report.requested_ids := by
  rw [install_role_bundle] at h
  by_cases hnid : pyStrip role_id = ""
  · rw [if_pos hnid] at h
    exact absurd h (by simp)
  · rw [if_neg hnid] at h
    cases hcat : _load_catalog fs catalog_registry with
    | error e => rw [hcat] at h; exact absurd h (by simp)
    | ok quad =>
      obtain ⟨catalog_path, normalized, key, catalog_entries⟩ := quad
      rw [hcat] at h
      dsimp only at h
      cases hby : catalogById catalog_entries (pyStrip role_id) with
      | none => rw [hby] at h; exact absurd h (by simp)
      | some role_entry =>
        rw [hby] at h
        dsimp only at h
        by_cases hrole : _is_role_entry role_entry = true
        · rw [if_neg (by simp [hrole])] at h
          cases htgt : _load_target_registry fs target_registry with
          | error e => rw [htgt] at h; exact absurd h (by simp)
          | ok quad2 =>
            obtain ⟨target_path, target_payload, target_key, target_entries⟩ := quad2
            rw [htgt] at h
            dsimp only at h
            have hrep : report.requested_ids =
                pyUnique (pyStrip role_id :: _resolve_role_dependencies fs role_entry
                  (dirname catalog_path) (entryIds catalog_entries))
              ∧ report.dependency_ids = _resolve_role_dependencies fs role_entry
                  (dirname catalog_path) (entryIds catalog_entries)
              ∧ report.added_ids ++ report.already_present_ids
                  ++ report.unresolved_dependencies =
                (let st := (pyUnique (pyStrip role_id :: _resolve_role_dependencies fs
                    role_entry (dirname catalog_path) (entryIds catalog_entries))).foldl
                  (installStep (catalogById catalog_entries) (dirname catalog_path)
                    (dirname target_path) dry_run)
                  ⟨target_entries, entryIds target_entries, [], [], [], [], fs⟩
                 st.added_ids ++ st.already_present ++ st.unresolved_dependencies) := by
              cases dry_run with
              | true =>
                simp only [if_true, reduceIte] at h
                rw [Except.ok.injEq, Prod.mk.injEq] at h
                rw [← h.1]
                exact ⟨rfl, rfl, rfl⟩
              | false =>
                simp only [Bool.false_eq_true, if_false, reduceIte] at h
                generalize hw : _write_registry_document _ _ _ = w at h
                cases w with
                | error e => exact absurd h (by simp)
                | ok fs2 =>
                  rw [Except.ok.injEq, Prod.mk.injEq] at h
                  rw [← h.1]
                  exact ⟨rfl, rfl, rfl⟩
            obtain ⟨hreq, hdep, htriple⟩ := hrep
            have hperm := install_fold_partition (catalogById catalog_entries)
              (dirname catalog_path) (dirname target_path) dry_run
              (pyUnique (pyStrip role_id :: _resolve_role_dependencies fs role_entry
                (dirname catalog_path) (entryIds catalog_entries)))
              ⟨target_entries, entryIds target_entries, [], [], [], [], fs⟩
            refine ⟨?_, ?_, ?_, ?_⟩
            · rw [hreq]
              exact pyUnique_nodup _
            · rw [hreq, pyUnique_head _ _ (by rw [pyStrip_idem]; exact hnid),
                pyStrip_idem]
              rfl
            · rw [hreq, hdep]
            · rw [htriple, hreq]
              simpa using hperm
        · rw [if_pos (by simp [hrole])] at h
          exact absurd h (by simp)

theorem install_report_partition_witness :
    (["role.r", "t.a"] : List String).Nodup
    ∧ (["role.r", "t.a"] : List String).head? = some (pyStrip "role.r")
    ∧ (["role.r", "t.a"] : List String) = pyUnique (pyStrip "role.r" :: ["t.a"])
    ∧ ((["role.r", "t.a"] ++ [] ++ []) : List String).Perm ["role.r", "t.a"] :=
  install_report_partition fsFx "c/cat.json" "t/reg.json" "role.r" true
    ⟨"role.r", "c/cat.json", "t/reg.json", ["role.r", "t.a"], ["t.a"],
     ["role.r", "t.a"], [], [], ["t/i.md", "t/i.md"], true⟩ fsFx rfl

/-- C10: a successful `list_role_offers` returns exactly one offer per role
entry of the catalog (dict entries classified by `_is_role_entry`: id prefix
`role.`, domain `role_orchestrator`, or a `role` tag) — the output is a
permutation of the per-role-entry offer list and has its length — sorted in
ascending order of role id, so the output order is a function of the catalog
alone. -/
theorem role_offers_one_per_role_sorted (fs : Fs) (catalog_registry : String)
    (installed_registry : Option String) (catalog_path : String) (normalized : Val)
    (key : String) (entries : List Val) (installed_ids : List String)
    (offers : List RoleOffer)
    (hcat : _load_catalog fs catalog_registry = .ok (catalog_path, normalized, key, entries))
    (hinst : installedIdsOf fs installed_registry = .ok installed_ids)
    (hoff : list_role_offers fs catalog_registry installed_registry = .ok offers) :
    offers.Perm (roleOffersOf fs (dirname catalog_path) (entryIds entries)
      installed_ids entries)
    ∧ offers.length = (entries.filter (fun e => isDict e && _is_role_entry e)).length
    ∧ SortedBy offerLT offers := by
  rw [list_role_offers, hcat] at hoff
  dsimp only at hoff
  rw [hinst] at hoff
  dsimp only at hoff
  rw [Except.ok.injEq] at hoff
  subst hoff
  refine ⟨insortBy_perm offerLT _, ?_, insortBy_sorted offerLT offerLT_asymm offerLT_le_trans _⟩
  rw [(insortBy_perm offerLT _).length_eq, roleOffersOf, List.length_map]

theorem role_offers_one_per_role_sorted_witness :
    ([⟨"role.r", "", "", ["t.a"], 1, [], false, 1⟩] : List RoleOffer).Perm
      (roleOffersOf fsFx (dirname "c/cat.json") (entryIds [roleEntryFx, depEntryFx])
        [] [roleEntryFx, depEntryFx])
    ∧ ([⟨"role.r", "", "", ["t.a"], 1, [], false, 1⟩] : List RoleOffer).length =
        ([roleEntryFx, depEntryFx].filter (fun e => isDict e && _is_role_entry e)).length
    ∧ SortedBy offerLT [⟨"role.r", "", "", ["t.a"], 1, [], false, 1⟩] :=
  role_offers_one_per_role_sorted fsFx "c/cat.json" none "c/cat.json"
    (.obj [("tools", .list [roleEntryFx, depEntryFx])]) "tools"
    [roleEntryFx, depEntryFx] [] [⟨"role.r", "", "", ["t.a"], 1, [], false, 1⟩]
    rfl rfl rfl

theorem installStep_dry_fs (byId : String → Option Val) (cr tp : String)
    (st : InstallState) (i : String) :
    (installStep byId cr tp true st i).fs = st.fs := by
  rw [installStep]
  by_cases hmem : i ∈ st.existing_ids
  · rw [if_pos hmem]
  · rw [if_neg hmem]
    cases byId i with
    | none => rfl
    | some entry =>
      dsimp only
      simp only [reduceIte]
      split_ifs <;> rfl

theorem install_fold_dry_fs (byId : String → Option Val) (cr tp : String) :
    ∀ (ids : List String) (st : InstallState),
      (ids.foldl (installStep byId cr tp true) st).fs = st.fs := by
  intro ids
  induction ids with
  | nil => intro st; rfl
  | cons i is ih =>
    intro st
    rw [List.foldl_cons, ih, installStep_dry_fs]

theorem installStep_lockstep (byId : String → Option Val) (cr tp : String)
    (hsep : ∀ f g : String, joinPath cr f ≠ joinPath tp g)
    (stD stR : InstallState) (i : String)
    (hex : stD.existing_ids = stR.existing_ids)
    (hadd : stD.added_ids = stR.added_ids)
    (halr : stD.already_present = stR.already_present)
    (hunr : stD.unresolved_dependencies = stR.unresolved_dependencies)
    (hfs : ∀ f : String, stD.fs (joinPath cr f) = stR.fs (joinPath cr f)) :
    (installStep byId cr tp true stD i).existing_ids =
      (installStep byId cr tp false stR i).existing_ids
    ∧ (installStep byId cr tp true stD i).added_ids =
      (installStep byId cr tp false stR i).added_ids
    ∧ (installStep byId cr tp true stD i).already_present =
      (installStep byId cr tp false stR i).already_present
    ∧ (installStep byId cr tp true stD i).unresolved_dependencies =
      (installStep byId cr tp false stR i).unresolved_dependencies
    ∧ (∀ f : String, (installStep byId cr tp true stD i).fs (joinPath cr f) =
        (installStep byId cr tp false stR i).fs (joinPath cr f)) := by
  obtain ⟨teD, exD, adD, alD, unD, cpD, fD⟩ := stD
  obtain ⟨teR, exR, adR, alR, unR, cpR, fR⟩ := stR
  dsimp only at hex hadd halr hunr hfs ⊢
  subst hex
  subst hadd
  subst halr
  subst hunr
  rw [installStep, installStep]
  dsimp only
  by_cases hmem : i ∈ exD
  · rw [if_pos hmem, if_pos hmem]
    exact ⟨rfl, rfl, rfl, rfl, hfs⟩
  · rw [if_neg hmem, if_neg hmem]
    cases hby : byId i with
    | none =>
      dsimp only
      exact ⟨rfl, rfl, rfl, rfl, hfs⟩
    | some entry =>
      dsimp only
      by_cases hinstr : pyStrip (pyStr (vGetD entry "instruction_file" (.str ""))) ≠ ""
      · rw [if_pos hinstr, if_pos hinstr]
        rw [hfs (pyStrip (pyStr (vGetD entry "instruction_file" (.str ""))))]
        by_cases hsrc : (fR (joinPath cr
            (pyStrip (pyStr (vGetD entry "instruction_file" (.str "")))))).isNone = true
        · rw [if_pos hsrc, if_pos hsrc]
          dsimp only
          exact ⟨rfl, rfl, rfl, rfl, hfs⟩
        · rw [if_neg hsrc, if_neg hsrc]
          simp only [reduceIte, Bool.false_eq_true, if_false]
          by_cases htD : (fD (joinPath tp
              (pyStrip (pyStr (vGetD entry "instruction_file" (.str "")))))).isNone = true
          · rw [if_pos htD]
            by_cases htR : (fR (joinPath tp
                (pyStrip (pyStr (vGetD entry "instruction_file" (.str "")))))).isNone = true
            · rw [if_pos htR]
              dsimp only
              refine ⟨rfl, rfl, rfl, rfl, ?_⟩
              intro f
              rw [fsSet, if_neg (hsep f _)]
              exact hfs f
            · rw [if_neg htR]
              dsimp only
              exact ⟨rfl, rfl, rfl, rfl, hfs⟩
          · rw [if_neg htD]
            by_cases htR : (fR (joinPath tp
                (pyStrip (pyStr (vGetD entry "instruction_file" (.str "")))))).isNone = true
            · rw [if_pos htR]
              dsimp only
              refine ⟨rfl, rfl, rfl, rfl, ?_⟩
              intro f
              rw [fsSet, if_neg (hsep f _)]
              exact hfs f
            · rw [if_neg htR]
              dsimp only
              exact ⟨rfl, rfl, rfl, rfl, hfs⟩
      · rw [if_neg hinstr, if_neg hinstr]
        dsimp only
        exact ⟨rfl, rfl, rfl, rfl, hfs⟩

theorem install_fold_lockstep (byId : String → Option Val) (cr tp : String)
    (hsep : ∀ f g : String, joinPath cr f ≠ joinPath tp g) :
    ∀ (ids : List String) (stD stR : InstallState),
      stD.existing_ids = stR.existing_ids →
      stD.added_ids = stR.added_ids →
      stD.already_present = stR.already_present →
      stD.unresolved_dependencies = stR.unresolved_dependencies →
      (∀ f : String, stD.fs (joinPath cr f) = stR.fs (joinPath cr f)) →
      (ids.foldl (installStep byId cr tp true) stD).added_ids =
        (ids.foldl (installStep byId cr tp false) stR).added_ids
      ∧ (ids.foldl (installStep byId cr tp true) stD).already_present =
        (ids.foldl (installStep byId cr tp false) stR).already_present
      ∧ (ids.foldl (installStep byId cr tp true) stD).unresolved_dependencies =
        (ids.foldl (installStep byId cr tp false) stR).unresolved_dependencies := by
  intro ids
  induction ids with
  | nil =>
    intro stD stR _ hadd halr hunr _
    exact ⟨hadd, halr, hunr⟩
  | cons i is ih =>
    intro stD stR hex hadd halr hunr hfs
    rw [List.foldl_cons, List.foldl_cons]
    obtain ⟨h1, h2, h3, h4, h5⟩ :=
      installStep_lockstep byId cr tp hsep stD stR i hex hadd halr hunr hfs
    exact ih (installStep byId cr tp true stD i) (installStep byId cr tp false stR i)
      h1 h2 h3 h4 h5

/-- C8 counterexample: on a catalog whose target directory sits inside the
catalog root (`a/cat.json` vs `a/b/reg.json`), a dry run and a real run of
`install_role_bundle` compute different reports.  The real run's copy of
`i.md` to `a/b/i.md` makes `t.y`'s instruction source exist, so the real run
adds `t.y` and copies twice, while the dry run reports `t.y` unresolved —
and on a shared instruction file the dry run also lists a duplicate copy
(see `fsFx`: dry `["t/i.md", "t/i.md"]` vs real `["t/i.md"]`). -/
theorem install_dry_run_report_diverges :
    ((install_role_bundle fsAlias "a/cat.json" "a/b/reg.json" "role.a" true).toOption.map
      (fun r => (r.1.added_ids, r.1.unresolved_dependencies, r.1.copied_instruction_files)))
      = some (["role.a", "t.x"], ["t.y"], ["a/b/i.md"])
    ∧ ((install_role_bundle fsAlias "a/cat.json" "a/b/reg.json" "role.a" false).toOption.map
      (fun r => (r.1.added_ids, r.1.unresolved_dependencies, r.1.copied_instruction_files)))
      = some (["role.a", "t.x", "t.y"], [], ["a/b/i.md", "a/b/b/i.md"])
    ∧ ((install_role_bundle fsFx "c/cat.json" "t/reg.json" "role.r" true).toOption.map
      (fun r => r.1.copied_instruction_files)) = some ["t/i.md", "t/i.md"]
    ∧ ((install_role_bundle fsFx "c/cat.json" "t/reg.json" "role.r" false).toOption.map
      (fun r => r.1.copied_instruction_files)) = some ["t/i.md"] :=
  ⟨rfl, rfl, rfl, rfl⟩

/-- C8 (amended): with `dry_run=True`, `install_role_bundle` performs no
filesystem writes — the returned filesystem is the input one, so the target
registry file is untouched and no instruction file is copied — and it
computes the same `added_ids`, `already_present_ids` and
`unresolved_dependencies` as the real run, provided no instruction-file
source path (under the catalog root) coincides with an instruction-file copy
target path (under the target registry's directory);
`copied_instruction_files` lists the dry run's planned copy targets but may
differ from the real run's (it can repeat a file several added cards share,
which a real run copies once). -/
theorem install_dry_run_frame (fs : Fs) (catalog_registry target_registry role_id : String)
    (repD repR : InstallReport) (fsD fsR : Fs)
    (hdry : install_role_bundle fs catalog_registry target_registry role_id true =
      .ok (repD, fsD))
    (hreal : install_role_bundle fs catalog_registry target_registry role_id false =
      .ok (repR, fsR))
    (hsep : ∀ f g : String, joinPath (dirname repD.catalog_registry) f ≠
      joinPath (dirname repD.target_registry) g) :
    fsD = fs
    ∧ repD.added_ids = repR.added_ids
    ∧ repD.already_present_ids = repR.already_present_ids
    ∧ repD.unresolved_dependencies = repR.unresolved_dependencies := by
  rw [install_role_bundle] at hdry hreal
  by_cases hnid : pyStrip role_id = ""
  · rw [if_pos hnid] at hdry
    exact absurd hdry (by simp)
  · rw [if_neg hnid] at hdry hreal
    cases hcat : _load_catalog fs catalog_registry with
    | error e => rw [hcat] at hdry; exact absurd hdry (by simp)
    | ok quad =>
      obtain ⟨catalog_path, normalized, key, catalog_entries⟩ := quad
      rw [hcat] at hdry hreal
      dsimp only at hdry hreal
      cases hby : catalogById catalog_entries (pyStrip role_id) with
      | none => rw [hby] at hdry; exact absurd hdry (by simp)
      | some role_entry =>
        rw [hby] at hdry hreal
        dsimp only at hdry hreal
        by_cases hrole : _is_role_entry role_entry = true
        · rw [if_neg (by simp [hrole])] at hdry hreal
          cases htgt : _load_target_registry fs target_registry with
          | error e => rw [htgt] at hdry; exact absurd hdry (by simp)
          | ok quad2 =>
            obtain ⟨target_path, target_payload, target_key, target_entries⟩ := quad2
            rw [htgt] at hdry hreal
            dsimp only at hdry hreal
            simp only [reduceIte, Bool.false_eq_true, if_false] at hdry hreal
            rw [Except.ok.injEq, Prod.mk.injEq] at hdry
            generalize hw : _write_registry_document _ _ _ = w at hreal
            cases w with
            | error e => exact absurd hreal (by simp)
            | ok fs2 =>
              rw [Except.ok.injEq, Prod.mk.injEq] at hreal
              have hsep' : ∀ f g : String, joinPath (dirname catalog_path) f ≠
                  joinPath (dirname target_path) g := by
                have h := hsep
                rw [← hdry.1] at h
                exact h
              have hlock := install_fold_lockstep (catalogById catalog_entries)
                (dirname catalog_path) (dirname target_path) hsep'
                (pyUnique (pyStrip role_id :: _resolve_role_dependencies fs role_entry
                  (dirname catalog_path) (entryIds catalog_entries)))
                ⟨target_entries, entryIds target_entries, [], [], [], [], fs⟩
                ⟨target_entries, entryIds target_entries, [], [], [], [], fs⟩
                rfl rfl rfl rfl (fun _ => rfl)
              have hfsD : fsD = fs := by
                rw [← hdry.2]
                exact install_fold_dry_fs _ _ _ _ _
              refine ⟨hfsD, ?_, ?_, ?_⟩
              · rw [← hdry.1, ← hreal.1]
                exact hlock.1
              · rw [← hdry.1, ← hreal.1]
                exact hlock.2.1
              · rw [← hdry.1, ← hreal.1]
                exact hlock.2.2
        · rw [if_pos (by simp [hrole])] at hdry
          exact absurd hdry (by simp)

theorem sep_c_t : ∀ f g : String, joinPath "c" f ≠ joinPath "t" g := by
  intro f g h
  have h2 : ('c' :: '/' :: f.data : List Char) = 't' :: '/' :: g.data :=
    congrArg String.data h
  simp at h2

theorem install_dry_run_frame_witness :
    fsFx = fsFx
    ∧ (["role.r", "t.a"] : List String) = ["role.r", "t.a"]
    ∧ ([] : List String) = ([] : List String)
    ∧ ([] : List String) = ([] : List String) :=
  install_dry_run_frame fsFx "c/cat.json" "t/reg.json" "role.r" repDfx repRfx fsFx
    fsRealFx rfl rfl sep_c_t
